import Mathlib

/-!
Verification of the knurdy KDL-to-serde decoding core.

The Rust source (src/lib.rs, src/literal.rs, src/node.rs) is shallowly
embedded below.  Machine integers are modelled as `Int` with explicit range
checks where the source performs checked narrowing (`try_into`); strings are
Lean `String`s; the KDL value union is a closed inductive mirroring
`kdl::KdlValue`.  The serde visitor protocol is external to the repository:
where a theorem depends on the behaviour of a standard serde visitor (the
char visitor, the derived tuple visitor, the generic schema-less value
visitor) that behaviour is modelled from the spec and documented at the
definition.
-/

/-- Mirror of `serde::de::Unexpected`: the description of the value actually
found, attached to an invalid-type error. The float payload is irrelevant to
every decoding decision and is not modelled. -/
inductive Unexpected where
  | str (s : String)
  | signed (i : Int)
  | unsigned (i : Int)
  | float
  | bool (b : Bool)
  | unit
  | unitVariant
  | other (s : String)
  deriving DecidableEq, Repr

/-- Mirror of `DeError` from src/lib.rs.  `invalidType` embeds serde's
`Error::invalid_type`, which in the real code routes through `custom` into
`VisitorError` with a rendered message; the embedding keeps it structured,
carrying the `Unexpected` payload, because the message rendering and the
visitor's expectation text live in the external serde protocol.
`invalidLength` likewise embeds the external protocol's
`Error::invalid_length` (raised by derived fixed-arity visitors and routed
through `custom`). -/
inductive DeError where
  | VisitorError (msg : String)
  | TupleStructWithNotJustArgs (name : String)
  | MismatchedTupleStructCount (expected got : Nat) (typeName : String)
  | IntSize
  | InvalidChar
  | Base64Error
  | ByteAnnotationLen
  | CharAnnotationLen
  | MismatchedType (msg : String)
  | invalidType (unexp : Unexpected)
  | invalidLength (got expected : Nat)
  deriving DecidableEq, Repr

/-- Mirror of `DeError::custom` (the `serde::de::Error` impl in src/lib.rs):
every custom message becomes a `VisitorError`. -/
def DeError.custom (msg : String) : DeError := .VisitorError msg

/-- Mirror of `kdl::KdlValue`: the closed union of literal kinds.  The four
integer constructors carry the stored 64-bit signed magnitude (modelled as
`Int`; the parser guarantees it fits in an `i64`).  The `Base10Float`
payload (a 64-bit float) is not consulted by any claim and is not modelled. -/
inductive KdlValue where
  | string (s : String)
  | rawString (s : String)
  | base2 (i : Int)
  | base8 (i : Int)
  | base10 (i : Int)
  | base16 (i : Int)
  | base10Float
  | bool (b : Bool)
  | null
  deriving DecidableEq, Repr

/-- Mirror of `unexpected_val` from src/literal.rs. -/
def unexpectedVal (val : KdlValue) : Unexpected :=
  match val with
  | .string s | .rawString s => .str s
  | .base2 it | .base8 it | .base10 it | .base16 it => .signed it
  | .base10Float => .float
  | .bool b => .bool b
  | .null => .unit

/-- Mirror of `kdl::KdlEntry` at the interface the decoder reads: an optional
property name, an optional type annotation (`ty`), and a value. -/
structure KdlEntry where
  name : Option String
  ty : Option String
  value : KdlValue
  deriving DecidableEq, Repr

/-- Mirror of `KdlAnnotatedValueWrap` from src/lib.rs: a value together with
its optional annotation (`ann` = the Rust field named after the annotation). -/
structure AnnValue where
  ann : Option String
  value : KdlValue
  deriving DecidableEq, Repr

/-- Mirror of `KdlAnnotatedValueWrap::from_entry`. -/
def fromEntry (e : KdlEntry) : AnnValue := ⟨e.ty, e.value⟩

/-- Mirror of `KdlAnnotatedValueDeser::annotation_is`. -/
def AnnValue.annIs (av : AnnValue) (s : String) : Bool :=
  match av.ann with
  | some it => it == s
  | none => false

deriving instance DecidableEq for Except

/-- UTF-8 bytes of a string (Rust `str::as_bytes`), as a list of `Nat`s. -/
def utf8Bytes (s : String) : List Nat :=
  (s.data.flatMap String.utf8EncodeChar).map (fun b => b.toNat)

/-- The ten integer widths instantiated by the `deser_int_literal!` macro in
src/literal.rs.  The macro generates one textually identical function per
width; the embedding indexes a single function by the width. -/
inductive IntWidth where
  | u8 | u16 | u32 | u64 | u128
  | i8 | i16 | i32 | i64 | i128
  deriving DecidableEq, Repr

/-- Lower bound of the width (Rust `TryInto` succeeds iff the value is
between `min` and `max`). -/
def IntWidth.min : IntWidth → Int
  | .u8 | .u16 | .u32 | .u64 | .u128 => 0
  | .i8 => -(2 ^ 7)
  | .i16 => -(2 ^ 15)
  | .i32 => -(2 ^ 31)
  | .i64 => -(2 ^ 63)
  | .i128 => -(2 ^ 127)

/-- Upper bound of the width. -/
def IntWidth.max : IntWidth → Int
  | .u8 => 2 ^ 8 - 1
  | .u16 => 2 ^ 16 - 1
  | .u32 => 2 ^ 32 - 1
  | .u64 => 2 ^ 64 - 1
  | .u128 => 2 ^ 128 - 1
  | .i8 => 2 ^ 7 - 1
  | .i16 => 2 ^ 15 - 1
  | .i32 => 2 ^ 31 - 1
  | .i64 => 2 ^ 63 - 1
  | .i128 => 2 ^ 127 - 1

/-- Mirror of the `deser_int_literal!` macro body (`KdlLiteralDeser`'s
integer requests in src/literal.rs): any of the four base-tagged integer
constructors is narrowed with a checked conversion (`try_into`, `IntSize` on
overflow) and handed to the visitor; every other kind is an invalid-type
error.  The successful result is the narrowed value the visitor receives. -/
def literalDeserializeInt (w : IntWidth) (v : KdlValue) : Except DeError Int :=
  match v with
  | .base2 it | .base8 it | .base10 it | .base16 it =>
    if w.min ≤ it ∧ it ≤ w.max then .ok it else .error .IntSize
  | oh_no => .error (.invalidType (unexpectedVal oh_no))

/-- Mirror of `KdlLiteralDeser::deserialize_char` (src/literal.rs lines
262-277): narrow the stored magnitude to a 32-bit unsigned code point
(`IntSize` on overflow), then validate it as a Unicode scalar value
(`InvalidChar` on failure). -/
def literalDeserializeChar (v : KdlValue) : Except DeError Char :=
  match v with
  | .base2 it | .base8 it | .base10 it | .base16 it =>
    if 0 ≤ it ∧ it ≤ 2 ^ 32 - 1 then
      if (it.toNat).isValidChar then .ok (Char.ofNat it.toNat)
      else .error .InvalidChar
    else .error .IntSize
  | oh_no => .error (.invalidType (unexpectedVal oh_no))

/-- Mirror of `KdlLiteralDeser::deserialize_str`. -/
def literalDeserializeStr : KdlValue → Except DeError String
  | .string s | .rawString s => .ok s
  | oh_no => .error (.invalidType (unexpectedVal oh_no))

/-- Mirror of `KdlLiteralDeser::deserialize_bool`. -/
def literalDeserializeBool : KdlValue → Except DeError Bool
  | .bool b => .ok b
  | oh_no => .error (.invalidType (unexpectedVal oh_no))

/-- Mirror of `KdlLiteralDeser::deserialize_unit`. -/
def literalDeserializeUnit : KdlValue → Except DeError Unit
  | .null => .ok ()
  | oh_no => .error (.invalidType (unexpectedVal oh_no))

/-- Mirror of `KdlLiteralDeser::deserialize_f64` (the float payload itself is
not modelled; only success/failure matters to the claims). -/
def literalDeserializeF64 : KdlValue → Except DeError Unit
  | .base10Float => .ok ()
  | oh_no => .error (.invalidType (unexpectedVal oh_no))

/-- Mirror of `KdlLiteralDeser::deserialize_bytes`: the raw UTF-8 bytes of a
text kind, verbatim; anything else is an invalid-type error. -/
def literalDeserializeBytes : KdlValue → Except DeError (List Nat)
  | .string s | .rawString s => .ok (utf8Bytes s)
  | oh_no => .error (.invalidType (unexpectedVal oh_no))

/-- Mirror of `KdlAnnotatedValueDeser::deserialize_u8` (src/literal.rs lines
105-118) driven by a standard u8 visitor: a text kind annotated `byte` must
be exactly one UTF-8 byte (that byte on success, `ByteAnnotationLen`
otherwise); every other case falls through to the bare literal integer
path. -/
def annValueDeserializeU8 (av : AnnValue) : Except DeError Int :=
  match av.value with
  | .string s | .rawString s =>
    if av.annIs "byte" then
      match utf8Bytes s with
      | [b] => .ok (Int.ofNat b)
      | _ => .error .ByteAnnotationLen
    else literalDeserializeInt .u8 av.value
  | other => literalDeserializeInt .u8 other

/-- Behaviour of `KdlLiteralDeser::deserialize_u8` when the visitor is the
standard character visitor (the fallback arm of
`KdlAnnotatedValueDeser::deserialize_char` calls `deserialize_u8` with the
char visitor).  Modelled from the spec for the external protocol: serde's
character visitor implements only `visit_char`/`visit_str`, so the
`visit_u8` call falls back to the default integer handler and fails with an
invalid-type error carrying the narrowed integer; a magnitude outside the
u8 range already fails the checked narrowing with `IntSize`. -/
def literalU8WithCharVisitor (v : KdlValue) : Except DeError Char :=
  match v with
  | .base2 it | .base8 it | .base10 it | .base16 it =>
    if 0 ≤ it ∧ it ≤ 2 ^ 8 - 1 then .error (.invalidType (.unsigned it))
    else .error .IntSize
  | oh_no => .error (.invalidType (unexpectedVal oh_no))

/-- Mirror of `KdlAnnotatedValueDeser::deserialize_char` (src/literal.rs
lines 119-135): a text kind annotated `char` must be exactly one character
(`CharAnnotationLen` otherwise); every other case falls through to
`KdlLiteralDeser(other).deserialize_u8(visitor)` — exactly as written in the
source, the fallback calls the u8 deserializer, not the char one. -/
def annValueDeserializeChar (av : AnnValue) : Except DeError Char :=
  match av.value with
  | .string s | .rawString s =>
    if av.annIs "char" then
      match s.data with
      | [c] => .ok c
      | _ => .error .CharAnnotationLen
    else literalU8WithCharVisitor av.value
  | other => literalU8WithCharVisitor other

/-- Mirror of `KdlAnnotatedValueDeser::deserialize_enum` (src/literal.rs
lines 172-188) up to `visit_enum`: the variant discriminant handed to the
external protocol, paired with the optional wrapped payload handed to the
`VariantAccess` impl. -/
def annValueDeserializeEnum (av : AnnValue) :
    Except DeError (String × Option KdlValue) :=
  match av.ann, av.value with
  | none, .string s | none, .rawString s => .ok (s, none)
  | none, oh_no => .error (.invalidType (unexpectedVal oh_no))
  | some a, v => .ok (a, some v)

/-- Mirror of `EnumLiteralDeserializer::unit_variant`. -/
def unitVariant : Option KdlValue → Except DeError Unit
  | none => .ok ()
  | some value => .error (.invalidType (unexpectedVal value))

/-- Mirror of `EnumLiteralDeserializer::newtype_variant_seed` for a seed
requesting an integer of width `w`: the payload is decoded by
`KdlLiteralDeser` — the bare unannotated literal rules. -/
def newtypeVariantInt (w : IntWidth) : Option KdlValue → Except DeError Int
  | some value => literalDeserializeInt w value
  | none => .error (.invalidType .unitVariant)

/-- Mirror of `EnumLiteralDeserializer::newtype_variant_seed` for a seed
requesting a character: the payload is decoded by `KdlLiteralDeser`. -/
def newtypeVariantChar : Option KdlValue → Except DeError Char
  | some value => literalDeserializeChar value
  | none => .error (.invalidType .unitVariant)

/-- Mirror of `EnumLiteralDeserializer::newtype_variant_seed` for a seed
requesting a byte sequence: the payload is decoded by `KdlLiteralDeser`. -/
def newtypeVariantBytes : Option KdlValue → Except DeError (List Nat)
  | some value => literalDeserializeBytes value
  | none => .error (.invalidType .unitVariant)

/-- Mirror of `EnumLiteralDeserializer::newtype_variant_seed` for a seed
requesting a string: the payload is decoded by `KdlLiteralDeser`. -/
def newtypeVariantStr : Option KdlValue → Except DeError String
  | some value => literalDeserializeStr value
  | none => .error (.invalidType .unitVariant)

/-- Mirror of `kdl::KdlNode` at the interface `KdlNodeDeser` reads: a name,
the ordered entry list, and the optional child document (a list of nodes). -/
inductive KdlNode where
  | mk (name : String) (entries : List KdlEntry) (children : Option (List KdlNode))

/-- The node's name (`node.name().value()`). -/
def KdlNode.name : KdlNode → String
  | .mk n _ _ => n

/-- The node's entries (`node.entries()`). -/
def KdlNode.entries : KdlNode → List KdlEntry
  | .mk _ e _ => e

/-- The node's optional children (`node.children()`, flattened to the
document's node list). -/
def KdlNode.children : KdlNode → Option (List KdlNode)
  | .mk _ _ c => c

/-- Mirror of `KdlNodeDeser::collect_args_props`: split the entries, in
order, into positional arguments and named properties. -/
def collectArgsProps : List KdlEntry → List AnnValue × List (String × AnnValue)
  | [] => ([], [])
  | entry :: rest =>
    let ap := collectArgsProps rest
    match entry.name with
    | some n => (ap.1, (n, fromEntry entry) :: ap.2)
    | none => (fromEntry entry :: ap.1, ap.2)

/-- Rust `Vec::pop`: remove and return the last element.  The node decoder
stores its cursors backwards so that popping the back walks the original
front-to-back order. -/
def vecPop : List α → Option (List α × α)
  | [] => none
  | x :: xs =>
    match vecPop xs with
    | none => some ([], x)
    | some (rest, last) => some (x :: rest, last)

theorem vecPop_append (l : List α) (a : α) : vecPop (l ++ [a]) = some (l, a) := by
  induction l with
  | nil => rfl
  | cons x xs ih => simp [vecPop, ih]

theorem vecPop_eq_some {l r : List α} {a : α} (h : vecPop l = some (r, a)) :
    l = r ++ [a] := by
  induction l generalizing r a with
  | nil => simp [vecPop] at h
  | cons x xs ih =>
    simp only [vecPop] at h
    cases h2 : vecPop xs with
    | none =>
      rw [h2] at h
      simp at h
      cases xs with
      | nil => simp [h.1, h.2]
      | cons y ys =>
        exfalso
        simp only [vecPop] at h2
        cases h3 : vecPop ys <;> simp [h3] at h2
    | some p =>
      rw [h2] at h
      simp at h
      have h4 := ih (r := p.1) (a := p.2) (by rw [h2])
      rw [← h.1, ← h.2, h4]
      simp

/-- Mirror of `SeqArgsDeser`'s `next_element_seed` loop driven to exhaustion
by the external visitor: repeatedly `pop` the backwards-stored vector,
yielding elements in original order. -/
def seqArgsDrive (stack : List AnnValue) : List AnnValue :=
  match h : vecPop stack with
  | none => []
  | some (rest, head) => head :: seqArgsDrive rest
termination_by stack.length
decreasing_by
  have h2 := vecPop_eq_some h
  subst h2
  simp

theorem seqArgsDrive_nil : seqArgsDrive [] = [] := by
  rw [seqArgsDrive]
  split
  next h => rfl
  next rest head h => simp [vecPop] at h

theorem seqArgsDrive_append (l : List AnnValue) (a : AnnValue) :
    seqArgsDrive (l ++ [a]) = a :: seqArgsDrive l := by
  rw [seqArgsDrive]
  split
  next h => rw [vecPop_append] at h; cases h
  next rest head h =>
    rw [vecPop_append] at h
    simp at h
    rw [h.1, h.2]

theorem seqArgsDrive_reverse (l : List AnnValue) : seqArgsDrive l.reverse = l := by
  induction l with
  | nil => simpa using seqArgsDrive_nil
  | cons a rest ih =>
    have h : (a :: rest).reverse = rest.reverse ++ [a] := by simp
    rw [h, seqArgsDrive_append, ih]

/-- Mirror of `SeqDashChildrenDeser`'s `next_element_seed` loop driven to
exhaustion: the slice is walked front to back. -/
def seqDashChildrenDrive : List KdlNode → List KdlNode
  | [] => []
  | head :: tail => head :: seqDashChildrenDrive tail

theorem seqDashChildrenDrive_eq (l : List KdlNode) : seqDashChildrenDrive l = l := by
  induction l with
  | nil => rfl
  | cons head tail ih => simp [seqDashChildrenDrive, ih]

/-- One element of the stream an explicit sequence request hands to the
external visitor: either an argument entry (decoded by the scalar decoder,
`KdlAnnotatedValueDeser`) or a dash-named child (decoded recursively by
`KdlNodeDeser`). -/
inductive SeqElem where
  | arg (av : AnnValue)
  | child (n : KdlNode)

/-- Mirror of `KdlNodeDeser::deserialize_seq` (src/node.rs lines 188-217) at
the element-stream level: which elements, in which order, the external
visitor receives. -/
def nodeDeserializeSeq (n : KdlNode) : Except DeError (List SeqElem) :=
  let ap := collectArgsProps n.entries
  if !ap.2.isEmpty || (ap.1.isEmpty && n.children.isNone) then
    .error (.invalidType
      (.other "node invalid as sequence (needs either only args, or children all named `-`)"))
  else
    match n.children with
    | some kids =>
      if kids.all (fun kid => kid.name == "-") then
        .ok ((seqDashChildrenDrive kids).map .child)
      else
        .error (.invalidType
          (.other "node invalid as sequence (needs either only args, or children all named `-`)"))
    | none => .ok ((seqArgsDrive ap.1.reverse).map .arg)

/-- Modelled from the spec: the external protocol's fixed-arity (tuple /
tuple-struct) visitor pulls exactly `len` elements from the sequence stream,
raising an invalid-length error (routed through `custom` in the real code)
when the stream ends early, and leaving any surplus elements unread. -/
def tupleVisitorTake (len : Nat) (elems : List SeqElem) :
    Except DeError (List SeqElem) :=
  if elems.length < len then .error (.invalidLength elems.length len)
  else .ok (elems.take len)

/-- Mirror of `KdlNodeDeser::deserialize_tuple` (src/node.rs lines 218-238):
the expected length is ignored by the node deserializer, which forwards
straight to `deserialize_seq`; only the external visitor consumes the
length. -/
def nodeDeserializeTuple (len : Nat) (n : KdlNode) :
    Except DeError (List SeqElem) :=
  (nodeDeserializeSeq n).bind (tupleVisitorTake len)

/-- Mirror of `MapDeserVal` (with `None` modelled as the `Option` below):
the pending value slot of the map cursor — a property value handed to the
scalar decoder, or a child node handed recursively to the node decoder. -/
inductive MapVal where
  | property (av : AnnValue)
  | child (n : KdlNode)

/-- Modelled from the spec: the external kebab-case → snake_case identifier
normalization utility (the heck crate's `ToSnekCase`), an out-of-scope
collaborator specified only by its input/output contract; embedded as
dash-to-underscore plus lowercasing. -/
def toSnekCase (s : String) : String :=
  ⟨s.data.map (fun c => if c = '-' then '_' else c.toLower)⟩

/-- The key transformation `MapDeser::next_key_seed` applies before handing
the key to the seed: `to_snek_case` when forwarding from a struct request,
the key unchanged otherwise. -/
def applySnek (snekify : Bool) (key : String) : String :=
  if snekify then toSnekCase key else key

/-- Mirror of the `MapDeser` cursor state (src/node.rs lines 294-307):
properties stored backwards for cheap popping, the remaining children, the
snekify flag, and the pending value slot. -/
structure MapDeserSt where
  properties : List (String × AnnValue)
  children : Option (List KdlNode)
  snekify : Bool
  value : Option MapVal

/-- Mirror of `MapDeser::next_key_seed` (src/node.rs lines 312-341). -/
def mapNextKeySeed (m : MapDeserSt) :
    Except DeError (Option (String × MapDeserSt)) :=
  if m.value.isSome then
    .error (DeError.custom "map visitor requested two keys in a row")
  else
    match vecPop m.properties with
    | some (rest, kv) =>
      .ok (some (applySnek m.snekify kv.1,
        { m with properties := rest, value := some (.property kv.2) }))
    | none =>
      match m.children with
      | some (kid :: tail) =>
        .ok (some (applySnek m.snekify kid.name,
          { m with children := some tail, value := some (.child kid) }))
      | _ => .ok none

/-- Mirror of `MapDeser::next_value_seed` (src/node.rs lines 343-356), at
the stream level: which pending value the seed receives. -/
def mapNextValueSeed (m : MapDeserSt) : Except DeError (MapVal × MapDeserSt) :=
  match m.value with
  | none => .error (DeError.custom "map visitor requested a value without a key")
  | some v => .ok (v, { m with value := none })

/-- Number of unconsumed cursor positions, the decreasing measure of the
key/value loop. -/
def MapDeserSt.measure (m : MapDeserSt) : Nat :=
  m.properties.length +
    (match m.children with
     | some l => l.length
     | none => 0)

theorem mapNextKeySeed_measure {m : MapDeserSt} {k : String} {m1 : MapDeserSt}
    (h : mapNextKeySeed m = .ok (some (k, m1))) : m1.measure < m.measure := by
  unfold mapNextKeySeed at h
  by_cases hv : m.value.isSome
  · simp [hv] at h
  · simp [hv] at h
    cases h2 : vecPop m.properties with
    | some p =>
      rw [h2] at h
      simp at h
      have h3 := vecPop_eq_some h2
      rw [← h.2]
      simp [MapDeserSt.measure, h3]
    | none =>
      rw [h2] at h
      cases h3 : m.children with
      | none => rw [h3] at h; simp at h
      | some kids =>
        rw [h3] at h
        cases kids with
        | nil => simp at h
        | cons kid tail =>
          simp at h
          rw [← h.2]
          simp [MapDeserSt.measure, h3]

theorem mapNextValueSeed_measure {m : MapDeserSt} {v : MapVal} {m2 : MapDeserSt}
    (h : mapNextValueSeed m = .ok (v, m2)) : m2.measure = m.measure := by
  unfold mapNextValueSeed at h
  cases h2 : m.value with
  | none => rw [h2] at h; simp at h
  | some w =>
    rw [h2] at h
    simp at h
    rw [← h.2]
    simp [MapDeserSt.measure]

/-- The key/value loop a well-behaved external map visitor runs against
`MapDeser`: alternate `next_key_seed` and `next_value_seed` until the key
stream ends, collecting the pairs. -/
def mapDrive (m : MapDeserSt) : Except DeError (List (String × MapVal)) :=
  match h : mapNextKeySeed m with
  | .error e => .error e
  | .ok none => .ok []
  | .ok (some (k, m1)) =>
    match h2 : mapNextValueSeed m1 with
    | .error e => .error e
    | .ok (v, m2) =>
      match mapDrive m2 with
      | .error e => .error e
      | .ok rest => .ok ((k, v) :: rest)
termination_by m.measure
decreasing_by
  have ha := mapNextKeySeed_measure h
  have hb := mapNextValueSeed_measure h2
  omega

/-- Mirror of `KdlNodeDeser::deserialize_map` (src/node.rs lines 151-171) at
the key/value-stream level: error if any argument is present, otherwise the
stream `MapDeser` produces (properties reversed for backwards storage, the
pending value slot empty). -/
def nodeDeserializeMap (snekify : Bool) (n : KdlNode) :
    Except DeError (List (String × MapVal)) :=
  let ap := collectArgsProps n.entries
  if !ap.1.isEmpty then
    .error (.invalidType (.other "node with no arguments"))
  else
    mapDrive ⟨ap.2.reverse, n.children, snekify, none⟩

/-- Mirror of `KdlNodeDeser::deserialize_struct`: set the snekify flag and
forward to `deserialize_map`. -/
def nodeDeserializeStruct (n : KdlNode) : Except DeError (List (String × MapVal)) :=
  nodeDeserializeMap true n

theorem seqArgsDrive_eq_reverse (l : List AnnValue) : seqArgsDrive l = l.reverse := by
  have h := seqArgsDrive_reverse l.reverse
  simpa using h

theorem mapDrive_start_none (sn : Bool) :
    mapDrive ⟨[], none, sn, none⟩ = .ok [] := by
  rw [mapDrive]
  split
  next e h => simp [mapNextKeySeed, vecPop] at h
  next h => rfl
  next k m1 h => simp [mapNextKeySeed, vecPop] at h

theorem mapDrive_start_kids (sn : Bool) (kids : List KdlNode) :
    mapDrive ⟨[], some kids, sn, none⟩ =
      .ok (kids.map (fun k => (applySnek sn k.name, MapVal.child k))) := by
  induction kids with
  | nil =>
    rw [mapDrive]
    split
    next e h => simp [mapNextKeySeed, vecPop] at h
    next h => rfl
    next k m1 h => simp [mapNextKeySeed, vecPop] at h
  | cons kid tail ih =>
    rw [mapDrive]
    split
    next e h => simp [mapNextKeySeed, vecPop] at h
    next h => simp [mapNextKeySeed, vecPop] at h
    next k m1 h =>
      simp [mapNextKeySeed, vecPop] at h
      split
      next e h2 => rw [← h.2] at h2; simp [mapNextValueSeed] at h2
      next v m2 h2 =>
        rw [← h.2] at h2
        simp [mapNextValueSeed] at h2
        rw [← h2.2, ih]
        simp [← h.1, ← h2.1]

/-- What driving `MapDeser` from its starting state produces: every property
in original order (the backwards storage undone by the backwards pops), then
every child in document order, each key transformed by `applySnek`. -/
theorem mapDrive_start (sn : Bool) (o : Option (List KdlNode))
    (propsBack : List (String × AnnValue)) :
    mapDrive ⟨propsBack, o, sn, none⟩ =
      .ok (propsBack.reverse.map (fun kv => (applySnek sn kv.1, MapVal.property kv.2))
        ++ (o.getD []).map (fun k => (applySnek sn k.name, MapVal.child k))) := by
  induction propsBack using List.reverseRecOn with
  | nil =>
    cases o with
    | none => simpa using mapDrive_start_none sn
    | some kids => simpa using mapDrive_start_kids sn kids
  | append_singleton ys y ih =>
    rw [mapDrive]
    split
    next e h =>
      rw [mapNextKeySeed] at h
      simp [vecPop_append] at h
    next h =>
      rw [mapNextKeySeed] at h
      simp [vecPop_append] at h
    next k m1 h =>
      rw [mapNextKeySeed] at h
      simp [vecPop_append] at h
      split
      next e h2 => rw [← h.2] at h2; simp [mapNextValueSeed] at h2
      next v m2 h2 =>
        rw [← h.2] at h2
        simp [mapNextValueSeed] at h2
        rw [← h2.2, ih]
        simp [← h.1, ← h2.1]

/-- The generic value tree a schema-less (`deserialize_any`) decode builds.
Modelled from the spec: the external protocol's schema-less visitor accepts
whatever shape the deserializer drives (unit, scalar, sequence, or map) and
assembles the corresponding value; the float payload is not modelled. -/
inductive AnyValue where
  | str (s : String)
  | int (i : Int)
  | float
  | bool (b : Bool)
  | unit
  | seq (elems : List AnyValue)
  | map (pairs : List (String × AnyValue))

/-- Mirror of `KdlAnnotatedValueDeser::deserialize_any` (src/literal.rs lines
85-98) driven by the schema-less visitor: dispatch purely on the value's
runtime kind to the corresponding typed request, each of which passes
through to `KdlLiteralDeser`. -/
def annValueDeserializeAny (av : AnnValue) : Except DeError AnyValue :=
  match av.value with
  | .string _ | .rawString _ => (literalDeserializeStr av.value).map .str
  | .base2 _ | .base8 _ | .base10 _ | .base16 _ =>
    (literalDeserializeInt .i64 av.value).map .int
  | .base10Float => (literalDeserializeF64 av.value).map (fun _ => .float)
  | .bool _ => (literalDeserializeBool av.value).map .bool
  | .null => (literalDeserializeUnit av.value).map (fun _ => .unit)

/-- The property phase of a schema-less map decode: each property value is
decoded by the scalar decoder's `deserialize_any`, first failure aborting. -/
def propsDeserializeAnyPairs (props : List (String × AnnValue)) :
    Except DeError (List (String × AnyValue)) :=
  props.mapM (fun kv => (annValueDeserializeAny kv.2).map (fun v => (kv.1, v)))

mutual

/-- Mirror of `KdlNodeDeser::deserialize_any` (src/node.rs lines 116-149)
driven by the schema-less visitor.  The source matches on the pair
`(!args.is_empty(), !props.is_empty() || children.is_some())` with a
`kids_all_dashes` guard arm that is reachable only at `(false, true)`; the
if-chain below reproduces that truth table, with the guard folded into a
match on `children` (the guard is false whenever `children` is absent). -/
def nodeDeserializeAny : KdlNode → Except DeError AnyValue
  | .mk name entries children =>
    let ap := collectArgsProps entries
    if ap.1.isEmpty then
      if !ap.2.isEmpty || children.isSome then
        match children with
        | some kids =>
          if kids.all (fun kid => kid.name == "-") then
            (nodesDeserializeAny kids).map .seq
          else nodeAnyMapValue (.mk name entries (some kids))
        | none => nodeAnyMapValue (.mk name entries none)
      else .ok .unit
    else
      if !ap.2.isEmpty || children.isSome then
        .error (.invalidType
          (.other "node with arguments, properties/children, or neither (and not both)"))
      else
        ((seqArgsDrive ap.1.reverse).mapM annValueDeserializeAny).map .seq
termination_by n => (sizeOf n, 1)

/-- Mirror of `KdlNodeDeser::deserialize_map` driven by the schema-less
visitor (snekify is false on this path): error if any argument is present;
otherwise the visitor drains `MapDeser` — properties in original order (the
reversed storage undone by the backwards pops, see `mapDrive_start`), then
children in document order — decoding each property value with the scalar
decoder's `deserialize_any` and each child recursively. -/
def nodeAnyMapValue : KdlNode → Except DeError AnyValue
  | .mk _ entries children =>
    let ap := collectArgsProps entries
    if !ap.1.isEmpty then .error (.invalidType (.other "node with no arguments"))
    else do
      let ps ← propsDeserializeAnyPairs ap.2
      let ks ←
        match children with
        | some kids => kidsDeserializeAnyPairs kids
        | none => pure []
      pure (.map (ps ++ ks))
termination_by n => (sizeOf n, 0)

/-- Mirror of `SeqDashChildrenDeser` driven by the schema-less visitor: the
children in document order, each recursively decoded by the node decoder,
first failure aborting. -/
def nodesDeserializeAny : List KdlNode → Except DeError (List AnyValue)
  | [] => .ok []
  | k :: rest => do
    let v ← nodeDeserializeAny k
    let vs ← nodesDeserializeAny rest
    pure (v :: vs)
termination_by l => (sizeOf l, 0)

/-- The child phase of a schema-less map decode: each child keyed by its
name and recursively decoded by the node decoder. -/
def kidsDeserializeAnyPairs : List KdlNode → Except DeError (List (String × AnyValue))
  | [] => .ok []
  | k :: rest => do
    let v ← nodeDeserializeAny k
    let vs ← kidsDeserializeAnyPairs rest
    pure ((k.name, v) :: vs)
termination_by l => (sizeOf l, 0)

end


theorem nodeAny_seq_of_dash (n : KdlNode) (kids : List KdlNode)
    (hargs : (collectArgsProps n.entries).1 = [])
    (hkids : n.children = some kids)
    (hdash : kids.all (fun kid => kid.name == "-") = true) :
    nodeDeserializeAny n = (nodesDeserializeAny kids).map .seq := by
  obtain ⟨name, entries, children⟩ := n
  simp only [KdlNode.entries] at hargs
  simp only [KdlNode.children] at hkids
  subst hkids
  rw [nodeDeserializeAny]
  simp [hargs, hdash]

theorem nodeAny_map_of_not_dash (n : KdlNode) (kids : List KdlNode)
    (hargs : (collectArgsProps n.entries).1 = [])
    (hkids : n.children = some kids)
    (hdash : kids.all (fun kid => kid.name == "-") = false) :
    nodeDeserializeAny n = nodeAnyMapValue n := by
  obtain ⟨name, entries, children⟩ := n
  simp only [KdlNode.entries] at hargs
  simp only [KdlNode.children] at hkids
  subst hkids
  rw [nodeDeserializeAny.eq_def]
  simp [hargs, hdash]

/-- Claim C1: for every node whose argument entries are non-empty and whose
property entries are non-empty or whose children list is present, a
schema-less (`deserialize_any`) decode always fails with the ambiguous-shape
error; it never silently decodes as a sequence, map, or unit. -/
theorem schemaless_ambiguous_shape (n : KdlNode)
    (hargs : (collectArgsProps n.entries).1 ≠ [])
    (hpc : (collectArgsProps n.entries).2 ≠ [] ∨ n.children ≠ none) :
    nodeDeserializeAny n =
      .error (.invalidType
        (.other "node with arguments, properties/children, or neither (and not both)")) := by
  obtain ⟨name, entries, children⟩ := n
  simp only [KdlNode.entries] at hargs
  simp only [KdlNode.entries, KdlNode.children] at hpc
  rw [nodeDeserializeAny.eq_def]
  have h1 : (collectArgsProps entries).1.isEmpty = false := by
    simpa [List.isEmpty_iff] using hargs
  have h2 : (!(collectArgsProps entries).2.isEmpty || children.isSome) = true := by
    rcases hpc with hp | hc
    · simp [List.isEmpty_iff, hp]
    · cases children with
      | none => exact absurd rfl hc
      | some kids => simp
  simp [h1, h2]

theorem nodeAnyMapValue_shape (n : KdlNode) (r : AnyValue)
    (h : nodeAnyMapValue n = .ok r) : ∃ kvs, r = .map kvs := by
  obtain ⟨name, entries, children⟩ := n
  rw [nodeAnyMapValue] at h
  by_cases h1 : (collectArgsProps entries).1.isEmpty
  · simp only [h1, Bool.not_true, if_neg] at h
    cases h2 : propsDeserializeAnyPairs (collectArgsProps entries).2 with
    | error e => simp [h2, Bind.bind, Except.bind] at h
    | ok ps =>
      cases children with
      | none =>
        simp only [h2, Bind.bind, Except.bind, pure, Except.pure] at h
        exact ⟨ps ++ [], (Except.ok.inj h).symm⟩
      | some kids =>
        cases h3 : kidsDeserializeAnyPairs kids with
        | error e => simp [h2, h3, Bind.bind, Except.bind, Functor.map, Except.map] at h
        | ok ks =>
          simp only [h2, h3, Bind.bind, Except.bind, Functor.map, Except.map] at h
          exact ⟨ps ++ ks, (Except.ok.inj h).symm⟩
  · simp [h1] at h

theorem nodeSeq_error_shape (n : KdlNode) (e : DeError)
    (h : nodeDeserializeSeq n = .error e) :
    e = .invalidType
      (.other "node invalid as sequence (needs either only args, or children all named `-`)") := by
  unfold nodeDeserializeSeq at h
  by_cases h1 :
      (!(collectArgsProps n.entries).2.isEmpty ||
        ((collectArgsProps n.entries).1.isEmpty && n.children.isNone)) = true
  · simp only [h1, if_pos] at h
    exact (Except.error.inj h).symm
  · simp only [h1, if_neg, Bool.not_eq_true] at h
    cases h2 : n.children with
    | some kids =>
      rw [h2] at h
      by_cases h3 : kids.all (fun kid => kid.name == "-") = true
      · simp [h3] at h
      · simp only [h3, Bool.not_eq_true, if_neg] at h
        exact (Except.error.inj h).symm
    | none =>
      rw [h2] at h
      simp at h

/-- Witness for C1: a node with one argument and a present (empty) children
list fails the schema-less decode with the ambiguous-shape error. -/
theorem schemaless_ambiguous_shape_witness :
    nodeDeserializeAny (.mk "node" [⟨none, none, .null⟩] (some [])) =
      .error (.invalidType
        (.other "node with arguments, properties/children, or neither (and not both)")) :=
  schemaless_ambiguous_shape _ (by decide) (Or.inr (by simp [KdlNode.children]))

/-- Claim C2: for every node with no argument entries and a present children
list in which every child is named `-`, a schema-less decode yields a
sequence of the children in document order, each recursively decoded as a
node; if at least one child's name differs from `-`, the same node decodes
as a Map instead (via `deserialize_map`, whose successes are always `map`
values). -/
theorem schemaless_dash_children (n : KdlNode) (kids : List KdlNode)
    (hargs : (collectArgsProps n.entries).1 = [])
    (hkids : n.children = some kids) :
    (kids.all (fun kid => kid.name == "-") = true →
      nodeDeserializeAny n = (nodesDeserializeAny kids).map .seq) ∧
    (kids.all (fun kid => kid.name == "-") = false →
      nodeDeserializeAny n = nodeAnyMapValue n ∧
      ∀ r, nodeDeserializeAny n = .ok r → ∃ kvs, r = .map kvs) := by
  constructor
  · intro hdash
    exact nodeAny_seq_of_dash n kids hargs hkids hdash
  · intro hdash
    have hm := nodeAny_map_of_not_dash n kids hargs hkids hdash
    refine ⟨hm, ?_⟩
    intro r hr
    rw [hm] at hr
    exact nodeAnyMapValue_shape n r hr

/-- Witness for C2: a node whose single child is named `-` decodes as the
sequence of its children. -/
theorem schemaless_dash_children_witness :
    nodeDeserializeAny (.mk "n" [] (some [.mk "-" [] none])) =
      (nodesDeserializeAny [.mk "-" [] none]).map .seq :=
  (schemaless_dash_children (.mk "n" [] (some [.mk "-" [] none]))
    [.mk "-" [] none] rfl rfl).1 rfl

/-- Claim C9: for every node with no arguments and a present children list
whose every child is named `-` (vacuously so for an empty list), a
schema-less decode yields the sequence of the children — the empty sequence
for an empty children list — regardless of any property entries, which are
silently discarded (the result does not mention them) rather than causing
an error. -/
theorem dash_children_props_discarded (n : KdlNode) (kids : List KdlNode)
    (hargs : (collectArgsProps n.entries).1 = [])
    (hkids : n.children = some kids)
    (hdash : kids.all (fun kid => kid.name == "-") = true) :
    nodeDeserializeAny n = (nodesDeserializeAny kids).map .seq ∧
    (kids = [] → nodeDeserializeAny n = .ok (.seq [])) := by
  have h := nodeAny_seq_of_dash n kids hargs hkids hdash
  refine ⟨h, ?_⟩
  intro hk
  subst hk
  rw [h, nodesDeserializeAny]
  rfl

/-- Witness for C9: a node carrying a property and a present empty children
list decodes as the empty sequence, its property silently dropped. -/
theorem dash_children_props_discarded_witness :
    nodeDeserializeAny (.mk "n" [⟨some "a", none, .null⟩] (some [])) =
      .ok (.seq []) :=
  (dash_children_props_discarded (.mk "n" [⟨some "a", none, .null⟩] (some []))
    [] rfl rfl rfl).2 rfl

/-- Claim C3: for every map or struct request (the `sn` flag is false for an
open map and true when forwarding from a struct) on a node with no argument
entries, the decoder produces the key/value stream in this exact order:
first every property entry in original document order (value handed to the
annotated scalar decoder), then every child node in document order (value
handed recursively to the node decoder, keyed by the child's name, the key
transformed by `applySnek`); a node with at least one argument entry fails
the request. -/
theorem map_request_stream_order (sn : Bool) (n : KdlNode) :
    ((collectArgsProps n.entries).1 ≠ [] →
      nodeDeserializeMap sn n =
        .error (.invalidType (.other "node with no arguments"))) ∧
    ((collectArgsProps n.entries).1 = [] →
      nodeDeserializeMap sn n =
        .ok ((collectArgsProps n.entries).2.map
              (fun kv => (applySnek sn kv.1, MapVal.property kv.2)) ++
            (n.children.getD []).map
              (fun k => (applySnek sn k.name, MapVal.child k)))) := by
  constructor
  · intro h
    unfold nodeDeserializeMap
    have h1 : (collectArgsProps n.entries).1.isEmpty = false := by
      simpa [List.isEmpty_iff] using h
    simp [h1]
  · intro h
    unfold nodeDeserializeMap
    have h1 : (collectArgsProps n.entries).1.isEmpty = true := by
      simp [List.isEmpty_iff, h]
    simp [h1, mapDrive_start]

/-- Witness for C3: one property followed by one child yields the
property-then-child stream. -/
theorem map_request_stream_order_witness :
    nodeDeserializeMap false
        (.mk "foo" [⟨some "a", none, .base10 1⟩] (some [.mk "kid" [] none])) =
      .ok [("a", .property ⟨none, .base10 1⟩),
           ("kid", .child (.mk "kid" [] none))] :=
  (map_request_stream_order false
    (.mk "foo" [⟨some "a", none, .base10 1⟩] (some [.mk "kid" [] none]))).2 rfl

/-- Claim C10: for every explicit sequence/tuple request on a node that has
at least one argument entry, no property entries, and a present children
list whose every child is named `-`, the decoder produces the sequence from
the children; the argument entries do not appear in the result and cause no
error — they are silently dropped. -/
theorem seq_request_drops_args (n : KdlNode) (kids : List KdlNode)
    (hargs : (collectArgsProps n.entries).1 ≠ [])
    (hprops : (collectArgsProps n.entries).2 = [])
    (hkids : n.children = some kids)
    (hdash : kids.all (fun kid => kid.name == "-") = true) :
    nodeDeserializeSeq n = .ok (kids.map .child) := by
  unfold nodeDeserializeSeq
  have hcond : (!(collectArgsProps n.entries).2.isEmpty ||
      ((collectArgsProps n.entries).1.isEmpty && n.children.isNone)) = false := by
    simp [hprops, hkids]
  simp [hcond, hkids, hdash, hprops, seqDashChildrenDrive_eq]

/-- Witness for C10: a node with one argument and one dash child decodes,
under an explicit sequence request, to just the child; the argument is
gone. -/
theorem seq_request_drops_args_witness :
    nodeDeserializeSeq (.mk "s" [⟨none, none, .base10 7⟩] (some [.mk "-" [] none])) =
      .ok [.child (.mk "-" [] none)] :=
  seq_request_drops_args (.mk "s" [⟨none, none, .base10 7⟩] (some [.mk "-" [] none]))
    [.mk "-" [] none] (by decide) rfl rfl rfl

/-- Claim C4 (code bug): the source's `deserialize_char` fallback calls
`deserialize_u8` on the bare literal instead of `deserialize_char`, so an
unannotated `Int` requested as a character is narrowed to u8 and handed to
the character visitor as an integer, which fails — magnitude 65 yields an
invalid-type error, not `'A'`, and a magnitude above 255 fails with
`IntSize` instead of being narrowed to a 32-bit code point.  The adjacent
`KdlLiteralDeser::deserialize_char` (second and fourth conjuncts) implements
exactly the u32-narrow-and-validate rule the claim states, matching the
repository's own tests. -/
theorem char_numeric_fallback_bug :
    annValueDeserializeChar ⟨none, .base10 65⟩ =
      .error (.invalidType (.unsigned 65)) ∧
    literalDeserializeChar (.base10 65) = .ok 'A' ∧
    annValueDeserializeChar ⟨none, .base16 129302⟩ = .error .IntSize ∧
    literalDeserializeChar (.base16 129302) = .ok (Char.ofNat 129302) := by
  refine ⟨by decide, by decide, by decide, by decide⟩

/-- Claim C5: for every enum request on an annotated scalar: when the
annotation is absent and the value is a text kind, the text is the
unit-variant name with no payload; when the annotation is present, the
annotation is the variant name and the wrapped payload is decoded by the
bare unannotated literal rules (`KdlLiteralDeser`) only, so the
byte/char/base64 coercions never apply to the payload — in particular a
`byte`-annotated text payload fails the newtype-u8 decode even though the
direct annotated u8 request would coerce it. -/
theorem enum_discriminant_rules (av : AnnValue) :
    (∀ s, av.ann = none → (av.value = .string s ∨ av.value = .rawString s) →
      annValueDeserializeEnum av = .ok (s, none)) ∧
    (∀ a, av.ann = some a →
      annValueDeserializeEnum av = .ok (a, some av.value)) ∧
    (∀ w v, newtypeVariantInt w (some v) = literalDeserializeInt w v) ∧
    (∀ v, newtypeVariantChar (some v) = literalDeserializeChar v) ∧
    (∀ v, newtypeVariantBytes (some v) = literalDeserializeBytes v) ∧
    (newtypeVariantInt .u8 (some (.string "A")) =
      .error (.invalidType (.str "A")) ∧
     annValueDeserializeU8 ⟨some "byte", .string "A"⟩ = .ok 65) := by
  obtain ⟨a, v⟩ := av
  refine ⟨?_, ?_, fun w v => rfl, fun v => rfl, fun v => rfl, by decide, by decide⟩
  · intro s h1 h2
    simp only at h1
    subst h1
    rcases h2 with h | h <;> (simp only at h; subst h; rfl)
  · intro a2 h
    simp only at h
    subst h
    rfl

/-- Witness for C5: a bare string decodes as a unit-variant name; an
annotated value decodes as that variant wrapping the payload. -/
theorem enum_discriminant_rules_witness :
    annValueDeserializeEnum ⟨none, .string "Variant1"⟩ = .ok ("Variant1", none) ∧
    annValueDeserializeEnum ⟨some "Variant2", .string "hello"⟩ =
      .ok ("Variant2", some (.string "hello")) :=
  ⟨(enum_discriminant_rules ⟨none, .string "Variant1"⟩).1 "Variant1" rfl (Or.inl rfl),
   (enum_discriminant_rules ⟨some "Variant2", .string "hello"⟩).2.1 "Variant2" rfl⟩

/-- Claim C6: for every text-kind value annotated `byte` requested as an
8-bit unsigned integer, the decode succeeds with the byte exactly when the
text's UTF-8 encoding is one byte long, and fails with `ByteAnnotationLen`
for every other length. -/
theorem byte_annotation_u8 (s : String) (b : Nat) :
    (utf8Bytes s = [b] →
      annValueDeserializeU8 ⟨some "byte", .string s⟩ = .ok (Int.ofNat b) ∧
      annValueDeserializeU8 ⟨some "byte", .rawString s⟩ = .ok (Int.ofNat b)) ∧
    ((utf8Bytes s).length ≠ 1 →
      annValueDeserializeU8 ⟨some "byte", .string s⟩ = .error .ByteAnnotationLen ∧
      annValueDeserializeU8 ⟨some "byte", .rawString s⟩ = .error .ByteAnnotationLen) := by
  constructor
  · intro h
    constructor <;> (simp only [annValueDeserializeU8, AnnValue.annIs]; rw [h]; rfl)
  · intro h
    cases h2 : utf8Bytes s with
    | nil => constructor <;> (simp only [annValueDeserializeU8, AnnValue.annIs]; rw [h2]; rfl)
    | cons b1 rest =>
      cases rest with
      | nil => exact absurd (by rw [h2]; rfl) h
      | cons b2 rest2 =>
        constructor <;> (simp only [annValueDeserializeU8, AnnValue.annIs]; rw [h2]; rfl)

/-- Witness for C6: text `A` with annotation `byte` decodes to 0x41; text
`AB` fails with the length error. -/
theorem byte_annotation_u8_witness :
    annValueDeserializeU8 ⟨some "byte", .string "A"⟩ = .ok 65 ∧
    annValueDeserializeU8 ⟨some "byte", .string "AB"⟩ = .error .ByteAnnotationLen :=
  ⟨((byte_annotation_u8 "A" 65).1 (by decide)).1,
   ((byte_annotation_u8 "AB" 0).2 (by decide)).1⟩

/-- Claim C8: for every `Int` value and every requested integer width, the
decoded result is identical for all four base tags of equal magnitude — the
base tag never affects decoding — and narrowing that overflows the
requested width fails with `IntSize`. -/
theorem int_base_invariance (w : IntWidth) (i : Int) :
    (literalDeserializeInt w (.base2 i) = literalDeserializeInt w (.base10 i) ∧
     literalDeserializeInt w (.base8 i) = literalDeserializeInt w (.base10 i) ∧
     literalDeserializeInt w (.base16 i) = literalDeserializeInt w (.base10 i)) ∧
    (¬(w.min ≤ i ∧ i ≤ w.max) →
      literalDeserializeInt w (.base10 i) = .error .IntSize) := by
  refine ⟨⟨rfl, rfl, rfl⟩, ?_⟩
  intro h
  simp [literalDeserializeInt, h]

/-- Witness for C8: magnitude 256 requested as u8 overflows. -/
theorem int_base_invariance_witness :
    literalDeserializeInt .u8 (.base10 256) = .error .IntSize :=
  (int_base_invariance .u8 256).2 (by decide)

/-- Claim C7 (amended): a fixed-arity sequence request never produces
`MismatchedTupleStructCount` (the variant is declared in src/lib.rs but
never constructed); on an arguments-only node, fewer positional arguments
than the arity fail with the external visitor's invalid-length error, and
surplus positional arguments are silently ignored (the decode succeeds with
the first `len`). -/
theorem tuple_wrong_arity_behavior (len : Nat) (n : KdlNode) :
    (∀ expected got typeName,
      nodeDeserializeTuple len n ≠
        .error (.MismatchedTupleStructCount expected got typeName)) ∧
    (∀ args, (collectArgsProps n.entries).1 = args →
      (collectArgsProps n.entries).2 = [] → n.children = none → args ≠ [] →
      (args.length < len →
        nodeDeserializeTuple len n = .error (.invalidLength args.length len)) ∧
      (len ≤ args.length →
        nodeDeserializeTuple len n = .ok ((args.take len).map .arg))) := by
  constructor
  · intro expected got typeName hcontra
    unfold nodeDeserializeTuple at hcontra
    cases hs : nodeDeserializeSeq n with
    | error e =>
      rw [hs] at hcontra
      simp only [Except.bind] at hcontra
      have he := nodeSeq_error_shape n e hs
      rw [he] at hcontra
      exact absurd (Except.error.inj hcontra) (by simp)
    | ok elems =>
      rw [hs] at hcontra
      simp only [Except.bind, tupleVisitorTake] at hcontra
      by_cases hlt : elems.length < len
      · rw [if_pos hlt] at hcontra
        exact absurd (Except.error.inj hcontra) (by simp)
      · rw [if_neg hlt] at hcontra
        cases hcontra
  · intro args ha hp hc hne
    have hseq : nodeDeserializeSeq n = .ok (args.map .arg) := by
      unfold nodeDeserializeSeq
      have h1 : (collectArgsProps n.entries).1.isEmpty = false := by
        rw [ha]
        cases args with
        | nil => exact absurd rfl hne
        | cons x xs => rfl
      have hcond : (!(collectArgsProps n.entries).2.isEmpty ||
          ((collectArgsProps n.entries).1.isEmpty && n.children.isNone)) = false := by
        simp [hp, h1]
      simp [hcond, hc, ha, hp, hne, seqArgsDrive_eq_reverse]
    unfold nodeDeserializeTuple
    rw [hseq]
    constructor
    · intro hlt
      simp only [Except.bind, tupleVisitorTake, List.length_map]
      rw [if_pos hlt]
    · intro hge
      have hnlt : ¬ ((args.map SeqElem.arg).length < len) := by
        simp only [List.length_map]
        omega
      simp only [Except.bind, tupleVisitorTake]
      rw [if_neg hnlt, List.map_take]

/-- Counterexample for C7 as stated: a one-argument node under a 2-tuple
request does not fail with `MismatchedTupleStructCount` — it fails with the
invalid-length error — and a three-argument node under a 2-tuple request
does not fail at all. -/
theorem tuple_count_counterexample :
    (match nodeDeserializeTuple 2 (.mk "foo" [⟨none, none, .null⟩] none) with
     | .error (.MismatchedTupleStructCount _ _ _) => False
     | _ => True) ∧
    nodeDeserializeTuple 2 (.mk "foo" [⟨none, none, .null⟩] none) =
      .error (.invalidLength 1 2) ∧
    nodeDeserializeTuple 2
        (.mk "foo" [⟨none, none, .null⟩, ⟨none, none, .bool true⟩,
          ⟨none, none, .null⟩] none) =
      .ok [.arg ⟨none, .null⟩, .arg ⟨none, .bool true⟩] := by
  have e1 : nodeDeserializeTuple 2 (.mk "foo" [⟨none, none, .null⟩] none) =
      .error (.invalidLength 1 2) := by
    have h := seqArgsDrive_reverse [(⟨none, .null⟩ : AnnValue)]
    simp at h
    simp [nodeDeserializeTuple, nodeDeserializeSeq, collectArgsProps, fromEntry,
      KdlNode.entries, KdlNode.children, h, tupleVisitorTake, Except.bind]
  have e2 : nodeDeserializeTuple 2
      (.mk "foo" [⟨none, none, .null⟩, ⟨none, none, .bool true⟩,
        ⟨none, none, .null⟩] none) =
      .ok [.arg ⟨none, .null⟩, .arg ⟨none, .bool true⟩] := by
    have h := seqArgsDrive_reverse
      [(⟨none, .null⟩ : AnnValue), ⟨none, .bool true⟩, ⟨none, .null⟩]
    simp at h
    simp [nodeDeserializeTuple, nodeDeserializeSeq, collectArgsProps, fromEntry,
      KdlNode.entries, KdlNode.children, h, tupleVisitorTake, Except.bind]
  refine ⟨?_, e1, e2⟩
  rw [e1]
  trivial

/-- Witness for C7 (amended): two arguments under a 3-tuple request fail
with the invalid-length error. -/
theorem tuple_wrong_arity_behavior_witness :
    nodeDeserializeTuple 3
        (.mk "bar" [⟨none, none, .null⟩, ⟨none, none, .bool true⟩] none) =
      .error (.invalidLength 2 3) :=
  ((tuple_wrong_arity_behavior 3
      (.mk "bar" [⟨none, none, .null⟩, ⟨none, none, .bool true⟩] none)).2
    [⟨none, .null⟩, ⟨none, .bool true⟩] rfl rfl rfl (by decide)).1 (by decide)
